import Mathlib

/-!
Verification of the mini-ORM (src/main.py): typed field conversions,
column bindings, the unit-of-work session (new/dirty/deleted sets,
add/flush), and the fluent query builder with its SQL compilation.

Python values relevant to the program are embedded as the inductive
type `Value` (None, int, str, bool, datetime.date, datetime.datetime).
Python `bool` is a subclass of `int`; every place the source tests
`isinstance(value, int)` the embedding therefore also accepts `Value.bool`.
Operations that can raise a Python exception return `Option`
(`none` = exception); operations that are total in the source are total.
-/

/-- Embeds `datetime.date`: a calendar date. `datetime.date` enforces
1 <= year <= 9999, 1 <= month <= 12, 1 <= day <= days in that month. -/
structure DateV where
  year : Nat
  month : Nat
  day : Nat
deriving DecidableEq

/-- Embeds `datetime.datetime` (naive, as the program uses it):
date plus time-of-day with microseconds. -/
structure DateTimeV where
  year : Nat
  month : Nat
  day : Nat
  hour : Nat
  minute : Nat
  second : Nat
  microsecond : Nat
deriving DecidableEq

/-- Leap-year rule used by `datetime` (proleptic Gregorian). -/
def isLeapYear (y : Nat) : Bool :=
  (y % 4 = 0 && y % 100 ≠ 0) || y % 400 = 0

/-- Number of days in a month, as `datetime` validates it. -/
def daysInMonth (y m : Nat) : Nat :=
  if m = 2 then (if isLeapYear y then 29 else 28)
  else if m = 4 ∨ m = 6 ∨ m = 9 ∨ m = 11 then 30
  else 31

/-- The invariant `datetime.date` enforces on its fields. -/
def validDate (y m d : Nat) : Bool :=
  1 ≤ y && y ≤ 9999 && 1 ≤ m && m ≤ 12 && 1 ≤ d && d ≤ daysInMonth y m

def DateV.valid (d : DateV) : Bool :=
  validDate d.year d.month d.day

/-- The invariant `datetime.datetime` enforces on its fields. -/
def DateTimeV.valid (t : DateTimeV) : Bool :=
  validDate t.year t.month t.day && t.hour ≤ 23 && t.minute ≤ 59 &&
    t.second ≤ 59 && t.microsecond ≤ 999999

/-- The decimal digit character for `k` (meaningful for `k < 10`). -/
def digitChar (k : Nat) : Char :=
  Char.ofNat (48 + k)

/-- Digit value of a character: `some` exactly on '0'..'9',
as the `datetime` ISO parsers require. -/
def dChar? (c : Char) : Option Nat :=
  if c.isDigit then some (c.toNat - 48) else none

/-- Embeds `date.isoformat()`: the text `%04d-%02d-%02d` (the digit
expansion below equals the printf padding for year <= 9999). -/
def isoDate (d : DateV) : String :=
  String.mk [digitChar (d.year / 1000 % 10), digitChar (d.year / 100 % 10),
    digitChar (d.year / 10 % 10), digitChar (d.year % 10), '-',
    digitChar (d.month / 10 % 10), digitChar (d.month % 10), '-',
    digitChar (d.day / 10 % 10), digitChar (d.day % 10)]

/-- Embeds `datetime.isoformat(sep)`: `%04d-%02d-%02d<sep>%02d:%02d:%02d`,
with `.%06d` appended exactly when the microsecond field is nonzero. -/
def isoDateTime (sep : Char) (t : DateTimeV) : String :=
  if t.microsecond = 0 then
    String.mk [digitChar (t.year / 1000 % 10), digitChar (t.year / 100 % 10),
      digitChar (t.year / 10 % 10), digitChar (t.year % 10), '-',
      digitChar (t.month / 10 % 10), digitChar (t.month % 10), '-',
      digitChar (t.day / 10 % 10), digitChar (t.day % 10), sep,
      digitChar (t.hour / 10 % 10), digitChar (t.hour % 10), ':',
      digitChar (t.minute / 10 % 10), digitChar (t.minute % 10), ':',
      digitChar (t.second / 10 % 10), digitChar (t.second % 10)]
  else
    String.mk [digitChar (t.year / 1000 % 10), digitChar (t.year / 100 % 10),
      digitChar (t.year / 10 % 10), digitChar (t.year % 10), '-',
      digitChar (t.month / 10 % 10), digitChar (t.month % 10), '-',
      digitChar (t.day / 10 % 10), digitChar (t.day % 10), sep,
      digitChar (t.hour / 10 % 10), digitChar (t.hour % 10), ':',
      digitChar (t.minute / 10 % 10), digitChar (t.minute % 10), ':',
      digitChar (t.second / 10 % 10), digitChar (t.second % 10), '.',
      digitChar (t.microsecond / 100000 % 10), digitChar (t.microsecond / 10000 % 10),
      digitChar (t.microsecond / 1000 % 10), digitChar (t.microsecond / 100 % 10),
      digitChar (t.microsecond / 10 % 10), digitChar (t.microsecond % 10)]

/-- Shared digit-assembly step of `date.fromisoformat`: reads the four
year digits, two month digits and two day digits, checks the separators
and the calendar ranges `datetime.date` enforces. -/
def dateFromChars (y1 y2 y3 y4 c1 m1 m2 c2 d1 d2 : Char) : Option DateV := do
  let a ← dChar? y1
  let b ← dChar? y2
  let c ← dChar? y3
  let d ← dChar? y4
  let e ← dChar? m1
  let f ← dChar? m2
  let g ← dChar? d1
  let h ← dChar? d2
  let y := ((a * 10 + b) * 10 + c) * 10 + d
  let mo := e * 10 + f
  let dy := g * 10 + h
  if c1 = '-' ∧ c2 = '-' ∧ validDate y mo dy then some ⟨y, mo, dy⟩ else none

/-- Embeds `datetime.date.fromisoformat` on the `YYYY-MM-DD` shape it is
documented to accept (the inverse of `date.isoformat`); any other input
raises, i.e. yields `none`. -/
def dateFromIso (s : String) : Option DateV :=
  match s.toList with
  | [y1, y2, y3, y4, c1, m1, m2, c2, d1, d2] =>
    dateFromChars y1 y2 y3 y4 c1 m1 m2 c2 d1 d2
  | _ => none

/-- Digit-assembly step of `datetime.fromisoformat` for the time part:
hours, minutes, seconds and an already-decoded microsecond count. -/
def dateTimeFromChars (y1 y2 y3 y4 c1 m1 m2 c2 d1 d2 h1 h2 e1 n1 n2 e2 s1 s2 : Char)
    (micro : Nat) : Option DateTimeV := do
  let dv ← dateFromChars y1 y2 y3 y4 c1 m1 m2 c2 d1 d2
  let p ← dChar? h1
  let q ← dChar? h2
  let r ← dChar? n1
  let t ← dChar? n2
  let u ← dChar? s1
  let v ← dChar? s2
  let hh := p * 10 + q
  let mi := r * 10 + t
  let ss := u * 10 + v
  if e1 = ':' ∧ e2 = ':' ∧ hh ≤ 23 ∧ mi ≤ 59 ∧ ss ≤ 59 then
    some ⟨dv.year, dv.month, dv.day, hh, mi, ss, micro⟩
  else none

/-- Embeds `datetime.datetime.fromisoformat` on the two shapes
`datetime.isoformat` emits: `YYYY-MM-DD<sep>HH:MM:SS` and
`YYYY-MM-DD<sep>HH:MM:SS.ffffff` (any single separator character, as the
stdlib parser accepts the output of `isoformat` with any `sep`).
The stdlib parser also accepts some further abbreviations of the time
part; no claim depends on those extra inputs. -/
def dateTimeFromIso (s : String) : Option DateTimeV :=
  match s.toList with
  | [y1, y2, y3, y4, c1, m1, m2, c2, d1, d2, _, h1, h2, e1, n1, n2, e2, s1, s2] =>
    dateTimeFromChars y1 y2 y3 y4 c1 m1 m2 c2 d1 d2 h1 h2 e1 n1 n2 e2 s1 s2 0
  | [y1, y2, y3, y4, c1, m1, m2, c2, d1, d2, _, h1, h2, e1, n1, n2, e2, s1, s2,
      dot, u1, u2, u3, u4, u5, u6] => do
    let a ← dChar? u1
    let b ← dChar? u2
    let c ← dChar? u3
    let d ← dChar? u4
    let e ← dChar? u5
    let f ← dChar? u6
    let micro := ((((a * 10 + b) * 10 + c) * 10 + d) * 10 + e) * 10 + f
    if dot = '.' then
      dateTimeFromChars y1 y2 y3 y4 c1 m1 m2 c2 d1 d2 h1 h2 e1 n1 n2 e2 s1 s2 micro
    else none
  | _ => none

/-- The Python values the program passes through columns and SQL:
`None`, `int`, `str`, `bool`, `datetime.date`, `datetime.datetime`. -/
inductive Value
  | none
  | int (n : Int)
  | str (s : String)
  | bool (b : Bool)
  | date (d : DateV)
  | datetime (t : DateTimeV)
deriving DecidableEq

/-- The six field-type classes of src/main.py. -/
inductive FieldType
  | integer
  | string
  | text
  | boolean
  | date
  | datetime
deriving DecidableEq

/-- Embeds the `to_python` methods. The base `Field.to_python` (inherited
by Integer/String/Text) is the identity. `Boolean.to_python` applies
`bool(value)` when `isinstance(value, int)` (which holds for Python bools
too, so a bool maps to itself). `Date.to_python`/`DateTime.to_python`
parse strings with `fromisoformat`, which raises (`none`) on malformed
input, and return any non-string unchanged. -/
def FieldType.to_python : FieldType → Value → Option Value
  | .integer, v => some v
  | .string, v => some v
  | .text, v => some v
  | .boolean, v =>
    match v with
    | .int n => some (.bool (n ≠ 0))
    | .bool b => some (.bool b)
    | w => some w
  | .date, v =>
    match v with
    | .str s => (dateFromIso s).map Value.date
    | w => some w
  | .datetime, v =>
    match v with
    | .str s => (dateTimeFromIso s).map Value.datetime
    | w => some w

/-- Embeds the `to_db` methods (all total). `Boolean.to_db` turns a bool
into `int(value)`. `Date.to_db` applies `value.isoformat()` when
`isinstance(value, datetime.date)` — which also holds for `datetime`
values (subclass), whose own `isoformat` uses the 'T' separator.
`DateTime.to_db` applies `value.isoformat(sep=' ')` to datetimes only. -/
def FieldType.to_db : FieldType → Value → Value
  | .integer, v => v
  | .string, v => v
  | .text, v => v
  | .boolean, v =>
    match v with
    | .bool b => .int (if b then 1 else 0)
    | w => w
  | .date, v =>
    match v with
    | .date d => .str (isoDate d)
    | .datetime t => .str (isoDateTime 'T' t)
    | w => w
  | .datetime, v =>
    match v with
    | .datetime t => .str (isoDateTime ' ' t)
    | w => w

/-- Normalized host values in the sense of the spec: an `int` for
Integer, a `str` for String/Text, a `bool` for Boolean, and a valid
`date`/`datetime` for Date/Timestamp. -/
def normalizedHost : FieldType → Value → Bool
  | .integer, .int _ => true
  | .string, .str _ => true
  | .text, .str _ => true
  | .boolean, .bool _ => true
  | .date, .date d => d.valid
  | .datetime, .datetime t => t.valid
  | _, _ => false

lemma dChar?_digitChar (k : Nat) (h : k < 10) : dChar? (digitChar k) = some k := by
  interval_cases k <;> decide

lemma two_digits (n : Nat) (h : n < 100) : n / 10 % 10 * 10 + n % 10 = n := by
  omega

lemma four_digits (n : Nat) (h : n < 10000) :
    ((n / 1000 % 10 * 10 + n / 100 % 10) * 10 + n / 10 % 10) * 10 + n % 10 = n := by
  omega

lemma six_digits (n : Nat) (h : n < 1000000) :
    ((((n / 100000 % 10 * 10 + n / 10000 % 10) * 10 + n / 1000 % 10) * 10 + n / 100 % 10) * 10
      + n / 10 % 10) * 10 + n % 10 = n := by
  omega

lemma validDate_bounds {y m d : Nat} (h : validDate y m d = true) :
    y < 10000 ∧ m < 100 ∧ d < 100 := by
  unfold validDate daysInMonth at h
  simp only [Bool.and_eq_true, decide_eq_true_eq] at h
  obtain ⟨⟨⟨⟨⟨h1, h2⟩, h3⟩, h4⟩, h5⟩, h6⟩ := h
  refine ⟨by omega, by omega, ?_⟩
  split at h6
  · split at h6 <;> omega
  · split at h6 <;> omega

/-- Parsing the printed form of a valid date recovers the date. -/
lemma dateFromChars_isoDate (d : DateV) (h : d.valid = true) :
    dateFromChars (digitChar (d.year / 1000 % 10)) (digitChar (d.year / 100 % 10))
      (digitChar (d.year / 10 % 10)) (digitChar (d.year % 10)) '-'
      (digitChar (d.month / 10 % 10)) (digitChar (d.month % 10)) '-'
      (digitChar (d.day / 10 % 10)) (digitChar (d.day % 10)) = some d := by
  obtain ⟨hy, hm, hd⟩ := validDate_bounds h
  unfold dateFromChars
  rw [dChar?_digitChar _ (by omega), dChar?_digitChar _ (by omega),
    dChar?_digitChar _ (by omega), dChar?_digitChar _ (by omega),
    dChar?_digitChar _ (by omega), dChar?_digitChar _ (by omega),
    dChar?_digitChar _ (by omega), dChar?_digitChar _ (by omega)]
  simp only [Option.bind_eq_bind, Option.some_bind]
  rw [four_digits _ hy, two_digits _ hm, two_digits _ hd]
  simp [DateV.valid] at h
  simp [h]

lemma DateTimeV.valid_parts {t : DateTimeV} (h : t.valid = true) :
    validDate t.year t.month t.day = true ∧ t.hour ≤ 23 ∧ t.minute ≤ 59 ∧
      t.second ≤ 59 ∧ t.microsecond ≤ 999999 := by
  unfold DateTimeV.valid at h
  simp only [Bool.and_eq_true, decide_eq_true_eq] at h
  exact ⟨h.1.1.1.1, h.1.1.1.2, h.1.1.2, h.1.2, h.2⟩

lemma dateTimeFromChars_digits (t : DateTimeV) (h : t.valid = true) (m : Nat) :
    dateTimeFromChars (digitChar (t.year / 1000 % 10)) (digitChar (t.year / 100 % 10))
      (digitChar (t.year / 10 % 10)) (digitChar (t.year % 10)) '-'
      (digitChar (t.month / 10 % 10)) (digitChar (t.month % 10)) '-'
      (digitChar (t.day / 10 % 10)) (digitChar (t.day % 10))
      (digitChar (t.hour / 10 % 10)) (digitChar (t.hour % 10)) ':'
      (digitChar (t.minute / 10 % 10)) (digitChar (t.minute % 10)) ':'
      (digitChar (t.second / 10 % 10)) (digitChar (t.second % 10)) m =
      some ⟨t.year, t.month, t.day, t.hour, t.minute, t.second, m⟩ := by
  obtain ⟨hdate, hh, hmi, hs, hmu⟩ := DateTimeV.valid_parts h
  unfold dateTimeFromChars
  rw [dateFromChars_isoDate ⟨t.year, t.month, t.day⟩ hdate]
  rw [dChar?_digitChar _ (by omega), dChar?_digitChar _ (by omega),
    dChar?_digitChar _ (by omega), dChar?_digitChar _ (by omega),
    dChar?_digitChar _ (by omega), dChar?_digitChar _ (by omega)]
  simp only [Option.bind_eq_bind, Option.some_bind]
  rw [two_digits t.hour (by omega), two_digits t.minute (by omega),
    two_digits t.second (by omega)]
  simp [hh, hmi, hs]

lemma dateTimeFromIso_isoDateTime (sep : Char) (t : DateTimeV) (h : t.valid = true) :
    dateTimeFromIso (isoDateTime sep t) = some t := by
  obtain ⟨hdate, hh, hmi, hs, hmu⟩ := DateTimeV.valid_parts h
  by_cases hm : t.microsecond = 0
  · have h1 : isoDateTime sep t =
        String.mk [digitChar (t.year / 1000 % 10), digitChar (t.year / 100 % 10),
          digitChar (t.year / 10 % 10), digitChar (t.year % 10), '-',
          digitChar (t.month / 10 % 10), digitChar (t.month % 10), '-',
          digitChar (t.day / 10 % 10), digitChar (t.day % 10), sep,
          digitChar (t.hour / 10 % 10), digitChar (t.hour % 10), ':',
          digitChar (t.minute / 10 % 10), digitChar (t.minute % 10), ':',
          digitChar (t.second / 10 % 10), digitChar (t.second % 10)] := by
      rw [isoDateTime, if_pos hm]
    rw [h1]
    have h2 : dateTimeFromIso (String.mk [digitChar (t.year / 1000 % 10),
        digitChar (t.year / 100 % 10), digitChar (t.year / 10 % 10),
        digitChar (t.year % 10), '-', digitChar (t.month / 10 % 10),
        digitChar (t.month % 10), '-', digitChar (t.day / 10 % 10),
        digitChar (t.day % 10), sep, digitChar (t.hour / 10 % 10),
        digitChar (t.hour % 10), ':', digitChar (t.minute / 10 % 10),
        digitChar (t.minute % 10), ':', digitChar (t.second / 10 % 10),
        digitChar (t.second % 10)]) =
        dateTimeFromChars (digitChar (t.year / 1000 % 10)) (digitChar (t.year / 100 % 10))
          (digitChar (t.year / 10 % 10)) (digitChar (t.year % 10)) '-'
          (digitChar (t.month / 10 % 10)) (digitChar (t.month % 10)) '-'
          (digitChar (t.day / 10 % 10)) (digitChar (t.day % 10))
          (digitChar (t.hour / 10 % 10)) (digitChar (t.hour % 10)) ':'
          (digitChar (t.minute / 10 % 10)) (digitChar (t.minute % 10)) ':'
          (digitChar (t.second / 10 % 10)) (digitChar (t.second % 10)) 0 := rfl
    rw [h2, dateTimeFromChars_digits t h 0]
    rw [← hm]
  · have h1 : isoDateTime sep t =
        String.mk [digitChar (t.year / 1000 % 10), digitChar (t.year / 100 % 10),
          digitChar (t.year / 10 % 10), digitChar (t.year % 10), '-',
          digitChar (t.month / 10 % 10), digitChar (t.month % 10), '-',
          digitChar (t.day / 10 % 10), digitChar (t.day % 10), sep,
          digitChar (t.hour / 10 % 10), digitChar (t.hour % 10), ':',
          digitChar (t.minute / 10 % 10), digitChar (t.minute % 10), ':',
          digitChar (t.second / 10 % 10), digitChar (t.second % 10), '.',
          digitChar (t.microsecond / 100000 % 10), digitChar (t.microsecond / 10000 % 10),
          digitChar (t.microsecond / 1000 % 10), digitChar (t.microsecond / 100 % 10),
          digitChar (t.microsecond / 10 % 10), digitChar (t.microsecond % 10)] := by
      rw [isoDateTime, if_neg hm]
    rw [h1]
    show (do
      let a ← dChar? (digitChar (t.microsecond / 100000 % 10))
      let b ← dChar? (digitChar (t.microsecond / 10000 % 10))
      let c ← dChar? (digitChar (t.microsecond / 1000 % 10))
      let d ← dChar? (digitChar (t.microsecond / 100 % 10))
      let e ← dChar? (digitChar (t.microsecond / 10 % 10))
      let f ← dChar? (digitChar (t.microsecond % 10))
      let micro := ((((a * 10 + b) * 10 + c) * 10 + d) * 10 + e) * 10 + f
      if ('.' : Char) = '.' then
        dateTimeFromChars (digitChar (t.year / 1000 % 10)) (digitChar (t.year / 100 % 10))
          (digitChar (t.year / 10 % 10)) (digitChar (t.year % 10)) '-'
          (digitChar (t.month / 10 % 10)) (digitChar (t.month % 10)) '-'
          (digitChar (t.day / 10 % 10)) (digitChar (t.day % 10))
          (digitChar (t.hour / 10 % 10)) (digitChar (t.hour % 10)) ':'
          (digitChar (t.minute / 10 % 10)) (digitChar (t.minute % 10)) ':'
          (digitChar (t.second / 10 % 10)) (digitChar (t.second % 10)) micro
      else none) = some t
    rw [dChar?_digitChar _ (by omega), dChar?_digitChar _ (by omega),
      dChar?_digitChar _ (by omega), dChar?_digitChar _ (by omega),
      dChar?_digitChar _ (by omega), dChar?_digitChar _ (by omega)]
    simp only [Option.bind_eq_bind, Option.some_bind, if_pos rfl]
    rw [six_digits t.microsecond (by omega), dateTimeFromChars_digits t h]
    simp

lemma dateFromIso_isoDate (d : DateV) (h : d.valid = true) :
    dateFromIso (isoDate d) = some d := by
  have : dateFromIso (isoDate d) =
      dateFromChars (digitChar (d.year / 1000 % 10)) (digitChar (d.year / 100 % 10))
        (digitChar (d.year / 10 % 10)) (digitChar (d.year % 10)) '-'
        (digitChar (d.month / 10 % 10)) (digitChar (d.month % 10)) '-'
        (digitChar (d.day / 10 % 10)) (digitChar (d.day % 10)) := rfl
  rw [this, dateFromChars_isoDate d h]

/-- C1: for every field type among Integer, String, Text, Boolean, Date,
Timestamp and every normalized host value v of that type,
to_python (to_db v) = v: Boolean converts bool to 0/1 integer and back,
Date and Timestamp convert to ISO-8601 text and back, and
Integer/String/Text map values identically in both directions. -/
theorem field_roundtrip (t : FieldType) (v : Value) (h : normalizedHost t v = true) :
    FieldType.to_python t (FieldType.to_db t v) = some v := by
  cases t <;> cases v <;> simp_all [normalizedHost, FieldType.to_db, FieldType.to_python]
  case date.date d => rw [dateFromIso_isoDate d h]
  case datetime.datetime dt => rw [dateTimeFromIso_isoDateTime ' ' dt h]

/-- Witness for C1: the round-trip at a concrete timestamp with nonzero
microseconds (the ISO text-and-back path). -/
theorem field_roundtrip_witness :
    normalizedHost .datetime (.datetime ⟨2024, 2, 29, 23, 59, 7, 123456⟩) = true ∧
      FieldType.to_python .datetime
        (FieldType.to_db .datetime (.datetime ⟨2024, 2, 29, 23, 59, 7, 123456⟩)) =
        some (.datetime ⟨2024, 2, 29, 23, 59, 7, 123456⟩) :=
  ⟨by decide, field_roundtrip .datetime (.datetime ⟨2024, 2, 29, 23, 59, 7, 123456⟩) (by decide)⟩

/-- Every output of `to_python` is a fixed point of `to_python`
(the pointwise form of idempotence). -/
lemma to_python_fix {t : FieldType} {x y : Value}
    (h : FieldType.to_python t x = some y) : FieldType.to_python t y = some y := by
  cases t
  case integer => exact Option.some.inj h ▸ rfl
  case string => exact Option.some.inj h ▸ rfl
  case text => exact Option.some.inj h ▸ rfl
  case boolean =>
    cases x <;> simp only [FieldType.to_python] at h <;> exact Option.some.inj h ▸ rfl
  case date =>
    cases x
    case str s =>
      simp only [FieldType.to_python] at h
      cases hp : dateFromIso s with
      | none => rw [hp] at h; simp at h
      | some d =>
        rw [hp] at h
        simp at h
        subst h
        rfl
    all_goals simp only [FieldType.to_python] at h; exact Option.some.inj h ▸ rfl
  case datetime =>
    cases x
    case str s =>
      simp only [FieldType.to_python] at h
      cases hp : dateTimeFromIso s with
      | none => rw [hp] at h; simp at h
      | some d =>
        rw [hp] at h
        simp at h
        subst h
        rfl
    all_goals simp only [FieldType.to_python] at h; exact Option.some.inj h ▸ rfl

/-- Embeds `Column`: the descriptor associating an attribute name
(assigned by `__set_name__`), a field type and the primary-key flag. -/
structure Column where
  name : String
  type_ : FieldType
  primary_key : Bool
deriving DecidableEq

/-- Embeds a declared model class: its resolved table name
(`__tablename__`, defaulting to the lower-cased class name) and its
`Column` class attributes in declaration (class dict) order. -/
structure Model where
  tablename : String
  columns : List Column
deriving DecidableEq

/-- Class attribute lookup restricted to columns: embeds
`getattr(cls, name)` finding a `Column` (class dicts have unique keys,
so the first match is the only one). -/
def findCol (m : Model) (n : String) : Option Column :=
  m.columns.find? (fun c => c.name = n)

/-- Embeds the primary-key scan
`for attr, value in cls.__dict__.items(): if ... value.primary_key: break`:
the first declared primary-key column, if any. -/
def pkCol (m : Model) : Option Column :=
  m.columns.find? (fun c => c.primary_key)

/-- Embeds a record instance: its class and its `__dict__`
(insertion-ordered, unique keys in any state Python can build). -/
structure Obj where
  model : Model
  attrs : List (String × Value)
deriving DecidableEq

/-- Embeds `dict.get(name)` on `__dict__`: first binding of the name. -/
def alGet : List (String × Value) → String → Option Value
  | [], _ => none
  | (k, w) :: rest, n => if k = n then some w else alGet rest n

/-- Embeds `dict[name] = value` on `__dict__`: replace in place if the
key exists, else append (Python dicts keep insertion position). -/
def alSet : List (String × Value) → String → Value → List (String × Value)
  | [], n, v => [(n, v)]
  | (k, w) :: rest, n, v =>
    if k = n then (k, v) :: rest else (k, w) :: alSet rest n v

/-- Embeds `Column.__get__` via `getattr(obj, n)`: when the class declares
a column `n`, read `obj.__dict__.get(n, None)` and convert with the field
type's `to_python` (which can raise, hence `Option`); otherwise a plain
instance-dict read (`none` = `AttributeError` when absent). -/
def objGetAttr (o : Obj) (n : String) : Option Value :=
  match findCol o.model n with
  | some c => FieldType.to_python c.type_ ((alGet o.attrs n).getD .none)
  | none => alGet o.attrs n

/-- Embeds `Column.__set__` via `setattr(obj, n, v)`: when the class
declares a column `n`, store `to_db(v)` in `__dict__`; otherwise store
the value unconverted. -/
def objSetAttr (o : Obj) (n : String) (v : Value) : Obj :=
  match findCol o.model n with
  | some c => { o with attrs := alSet o.attrs n (FieldType.to_db c.type_ v) }
  | none => { o with attrs := alSet o.attrs n v }

/-- Embeds the membership test `pk_value in (None, 0, '', False)` of
`Session.add` under Python equality (`0 == False`, so both map here). -/
def isUnset : Value → Bool
  | .none => true
  | .int n => n = 0
  | .str s => s = ""
  | .bool b => !b
  | _ => false

/-- An executed SQL statement: its text and its positional parameters. -/
structure Stmt where
  sql : String
  params : List Value
deriving DecidableEq

/-- Embeds the session state. Python sets hold objects by identity; the
embedding gives every live instance an identity `Nat` resolved through
`heap`, and the three pending sets are duplicate-free identity lists
(Python's set iteration order is unspecified; the list order stands in
for one such order — no claim depends on intra-phase order). -/
structure Session where
  heap : Nat → Obj
  new : List Nat
  dirty : List Nat
  deleted : List Nat

/-- Embeds `set.add`: insert if absent. -/
def listInsert (l : List Nat) (x : Nat) : List Nat :=
  if x ∈ l then l else l ++ [x]

/-- Embeds `Session.add`: find the first primary-key column of the
instance's class; if there is one, read its attribute (descriptor get —
this can raise, hence `Option`) and put the instance in *dirty* when the
value is not in `(None, 0, '', False)`; in every other case put it
in *new*. -/
def Session.add (s : Session) (oid : Nat) : Option Session :=
  let o := s.heap oid
  match pkCol o.model with
  | none => some { s with new := listInsert s.new oid }
  | some c =>
    match objGetAttr o c.name with
    | none => none
    | some pkv =>
      if isUnset pkv then some { s with new := listInsert s.new oid }
      else some { s with dirty := listInsert s.dirty oid }

/-- The add-classification condition of C2, as read by `Session.add`:
`some true` = route to *new* (no primary-key column, or its read value is
unset), `some false` = route to *dirty*, `none` = the read raises. -/
def pkUnsetRead (o : Obj) : Option Bool :=
  match pkCol o.model with
  | none => some true
  | some c => (objGetAttr o c.name).map isUnset

/-- C2: whenever `Session.add` returns, it placed the instance in *new*
exactly when the schema has no primary-key column or the primary-key
attribute reads as one of None, 0, '', False; otherwise it placed it in
*dirty*; and it never touches the *deleted* set (or the heap). -/
theorem session_add_classification (s : Session) (oid : Nat) (s' : Session)
    (h : Session.add s oid = some s') :
    s'.deleted = s.deleted ∧ s'.heap = s.heap ∧
      ((pkUnsetRead (s.heap oid) = some true ∧
          s'.new = listInsert s.new oid ∧ s'.dirty = s.dirty) ∨
        (pkUnsetRead (s.heap oid) = some false ∧
          s'.dirty = listInsert s.dirty oid ∧ s'.new = s.new)) := by
  unfold Session.add at h
  dsimp only at h
  cases hp : pkCol (s.heap oid).model with
  | none =>
    rw [hp] at h
    dsimp only at h
    simp only [Option.some.injEq] at h
    subst h
    exact ⟨rfl, rfl, Or.inl ⟨by simp [pkUnsetRead, hp], rfl, rfl⟩⟩
  | some c =>
    rw [hp] at h
    dsimp only at h
    cases hg : objGetAttr (s.heap oid) c.name with
    | none => rw [hg] at h; simp at h
    | some pkv =>
      rw [hg] at h
      dsimp only at h
      by_cases hu : isUnset pkv = true
      · rw [if_pos hu] at h
        simp only [Option.some.injEq] at h
        subst h
        refine ⟨rfl, rfl, Or.inl ⟨?_, rfl, rfl⟩⟩
        simp [pkUnsetRead, hp, hg, hu]
      · rw [if_neg hu] at h
        simp only [Option.some.injEq] at h
        subst h
        refine ⟨rfl, rfl, Or.inr ⟨?_, rfl, rfl⟩⟩
        simp [pkUnsetRead, hp, hg]
        simpa using hu

/-- A model with an Integer primary key `id`, a String `name` and an
Integer `age` (the User schema of the program's tests). -/
def userModel : Model :=
  ⟨"users", [⟨"id", .integer, true⟩, ⟨"name", .string, false⟩, ⟨"age", .integer, false⟩]⟩

/-- A fresh user instance: primary key never assigned. -/
def aliceObj : Obj :=
  ⟨userModel, [("name", .str "Alice"), ("age", .int 30)]⟩

/-- A persisted user instance: primary key already set. -/
def bobObj : Obj :=
  ⟨userModel, [("id", .int 7), ("name", .str "Bob"), ("age", .int 25)]⟩

/-- A session whose heap holds Alice at identity 0 and Bob at 1. -/
def sessionA : Session :=
  ⟨fun i => if i = 0 then aliceObj else bobObj, [], [], []⟩

/-- Witness for C2: adding the fresh instance routes it to *new*. -/
theorem session_add_classification_witness :
    Session.add sessionA 0 = some ⟨sessionA.heap, [0], [], []⟩ ∧
      (sessionA.heap, [0], ([] : List Nat)).2.1 ≠ [] ∧
      ((⟨sessionA.heap, [0], [], []⟩ : Session).deleted = sessionA.deleted ∧
        (⟨sessionA.heap, [0], [], []⟩ : Session).heap = sessionA.heap ∧
        ((pkUnsetRead (sessionA.heap 0) = some true ∧
            (⟨sessionA.heap, [0], [], []⟩ : Session).new = listInsert sessionA.new 0 ∧
            (⟨sessionA.heap, [0], [], []⟩ : Session).dirty = sessionA.dirty) ∨
          (pkUnsetRead (sessionA.heap 0) = some false ∧
            (⟨sessionA.heap, [0], [], []⟩ : Session).dirty = listInsert sessionA.dirty 0 ∧
            (⟨sessionA.heap, [0], [], []⟩ : Session).new = sessionA.new))) :=
  ⟨rfl, by decide, session_add_classification sessionA 0 _ rfl⟩

/-- Embeds `attr.startswith('_')` — the only prefix test the source
performs: whether the name's first character is an underscore. -/
def startsWithUnderscore (s : String) : Bool :=
  match s.toList with
  | [] => false
  | c :: _ => c = '_'

/-- Option-valued map used to thread a raising conversion over a list
(the body of the INSERT-building loop). -/
def mapOption (f : α → Option β) : List α → Option (List β)
  | [] => some []
  | a :: l =>
    match f a, mapOption f l with
    | some b, some bs => some (b :: bs)
    | _, _ => none

/-- The INSERT loop's per-attribute step: `col = getattr(obj.__class__, attr)`
with no default raises `AttributeError` (`none`) when the class does not
declare the attribute; a declared column converts the value with `to_db`. -/
def convAttr (m : Model) (a : String × Value) : Option (String × Value) :=
  match findCol m a.1 with
  | some c => some (a.1, FieldType.to_db c.type_ a.2)
  | none => none

/-- The UPDATE loop's per-attribute step: here the source uses
`getattr(obj.__class__, attr, None)` with a default, so an undeclared
attribute passes through unconverted instead of raising. -/
def convAttrD (m : Model) (a : String × Value) : String × Value :=
  match findCol m a.1 with
  | some c => (a.1, FieldType.to_db c.type_ a.2)
  | none => a

/-- Builds the INSERT statement for one *new* instance: all `__dict__`
entries not starting with '_', values converted by their column's
`to_db`, names and one '?' placeholder per column joined by ', '. -/
def insertObj (o : Obj) : Option Stmt :=
  (mapOption (convAttr o.model) (o.attrs.filter (fun a => !startsWithUnderscore a.1))).map
    (fun conv =>
      ⟨"INSERT INTO " ++ o.model.tablename ++ " (" ++
          String.intercalate (", ") (conv.map (fun a => a.1)) ++ ") VALUES (" ++
          String.intercalate (", ") (conv.map (fun _ => "?")) ++ ")",
        conv.map (fun a => a.2)⟩)

/-- After a successful INSERT, `setattr(obj, pk_name, cursor.lastrowid)`
when the class declares a primary-key column. -/
def assignPk (o : Obj) (rid : Int) : Obj :=
  match pkCol o.model with
  | some c => objSetAttr o c.name (.int rid)
  | none => o

/-- The insert phase of `flush` over a snapshot of the *new* set.
`rowids k` is the store's `lastrowid` for the k-th INSERT executed
(the store is an external collaborator); each inserted instance is
mutated with its new primary key and removed from *new*. -/
def runNewPhase (rowids : Nat → Int) : Nat → Session → List Nat → Option (Session × List Stmt)
  | _, s, [] => some (s, [])
  | k, s, oid :: rest =>
    match insertObj (s.heap oid) with
    | none => none
    | some stmt =>
      let s1 : Session :=
        { s with heap := Function.update s.heap oid (assignPk (s.heap oid) (rowids k)),
                 new := s.new.erase oid }
      match runNewPhase rowids (k + 1) s1 rest with
      | none => none
      | some (s2, stmts) => some (s2, stmt :: stmts)

/-- Builds the UPDATE statement for one *dirty* instance: every
non-underscore `__dict__` entry other than the primary-key column in the
SET list, the primary-key value appended last to the parameters. -/
def updateStmtFor (o : Obj) (c : Column) (pkv : Value) : Stmt :=
  let items := (o.attrs.filter
    (fun a => !startsWithUnderscore a.1 && a.1 ≠ c.name)).map (convAttrD o.model)
  ⟨"UPDATE " ++ o.model.tablename ++ " SET " ++
      String.intercalate (", ") (items.map (fun a => a.1 ++ "=?")) ++
      " WHERE " ++ c.name ++ "=?",
    items.map (fun a => a.2) ++ [pkv]⟩

/-- The update phase of `flush` over a snapshot of the *dirty* set: an
instance whose class declares no primary-key column is skipped by
`continue` (and stays in *dirty*); otherwise the primary key is read
through the descriptor (which can raise), the UPDATE executed and the
instance removed from *dirty*. -/
def runDirtyPhase : Session → List Nat → Option (Session × List Stmt)
  | s, [] => some (s, [])
  | s, oid :: rest =>
    match pkCol (s.heap oid).model with
    | none => runDirtyPhase s rest
    | some c =>
      match objGetAttr (s.heap oid) c.name with
      | none => none
      | some pkv =>
        match runDirtyPhase { s with dirty := s.dirty.erase oid } rest with
        | none => none
        | some (s2, stmts) => some (s2, updateStmtFor (s.heap oid) c pkv :: stmts)

/-- The delete phase of `flush` over a snapshot of the *deleted* set:
same skip rule as the update phase; a deletable instance yields
`DELETE FROM <table> WHERE <pk>=?` and leaves *deleted*. -/
def runDeletedPhase : Session → List Nat → Option (Session × List Stmt)
  | s, [] => some (s, [])
  | s, oid :: rest =>
    match pkCol (s.heap oid).model with
    | none => runDeletedPhase s rest
    | some c =>
      match objGetAttr (s.heap oid) c.name with
      | none => none
      | some pkv =>
        match runDeletedPhase { s with deleted := s.deleted.erase oid } rest with
        | none => none
        | some (s2, stmts) =>
          some (s2,
            (⟨"DELETE FROM " ++ (s.heap oid).model.tablename ++ " WHERE " ++ c.name ++ "=?",
              [pkv]⟩ : Stmt) :: stmts)

/-- Embeds `Session.flush`: the three phases run in order new → dirty →
deleted, each over a snapshot (`list(...)`) of its set taken when the
phase starts; the executed statements are returned in execution order. -/
def Session.flush (rowids : Nat → Int) (s : Session) : Option (Session × List Stmt) :=
  match runNewPhase rowids 0 s s.new with
  | none => none
  | some (s1, ins) =>
    match runDirtyPhase s1 s1.dirty with
    | none => none
    | some (s2, upd) =>
      match runDeletedPhase s2 s2.deleted with
      | none => none
      | some (s3, del) => some (s3, ins ++ upd ++ del)

/-- Whether an instance's class declares a primary-key column. -/
def hasPk (o : Obj) : Bool :=
  (pkCol o.model).isSome

lemma objSetAttr_model (o : Obj) (n : String) (v : Value) :
    (objSetAttr o n v).model = o.model := by
  unfold objSetAttr
  cases findCol o.model n <;> rfl

lemma assignPk_model (o : Obj) (rid : Int) : (assignPk o rid).model = o.model := by
  unfold assignPk
  cases pkCol o.model with
  | none => rfl
  | some c => exact objSetAttr_model o c.name (.int rid)

lemma insertObj_sql {o : Obj} {t : Stmt} (h : insertObj o = some t) :
    ∃ r, t.sql = "INSERT INTO " ++ r := by
  unfold insertObj at h
  cases hm : mapOption (convAttr o.model) (o.attrs.filter (fun a => !startsWithUnderscore a.1)) with
  | none => rw [hm] at h; simp at h
  | some conv =>
    rw [hm] at h
    simp only [Option.map_some', Option.some.injEq] at h
    subst h
    exact ⟨_, rfl⟩

lemma runNewPhase_spec (rowids : Nat → Int) :
    ∀ (l : List Nat) (k : Nat) (s s' : Session) (stmts : List Stmt),
      runNewPhase rowids k s l = some (s', stmts) →
      s'.dirty = s.dirty ∧ s'.deleted = s.deleted ∧
        s'.new = l.foldl (fun d i => d.erase i) s.new ∧
        stmts.length = l.length ∧
        (∀ t ∈ stmts, ∃ r, t.sql = "INSERT INTO " ++ r) ∧
        (∀ i, (s'.heap i).model = (s.heap i).model) := by
  intro l
  induction l with
  | nil =>
    intro k s s' stmts h
    unfold runNewPhase at h
    simp only [Option.some.injEq, Prod.mk.injEq] at h
    obtain ⟨h1, h2⟩ := h
    subst h1
    subst h2
    exact ⟨rfl, rfl, rfl, rfl, by simp, fun i => rfl⟩
  | cons oid rest ih =>
    intro k s s' stmts h
    unfold runNewPhase at h
    cases hio : insertObj (s.heap oid) with
    | none => rw [hio] at h; simp at h
    | some stmt =>
      rw [hio] at h
      dsimp only at h
      cases hrec : runNewPhase rowids (k + 1)
          { s with heap := Function.update s.heap oid (assignPk (s.heap oid) (rowids k)),
                   new := s.new.erase oid } rest with
      | none => rw [hrec] at h; simp at h
      | some p =>
        rw [hrec] at h
        obtain ⟨s2, stmts2⟩ := p
        simp only [Option.some.injEq, Prod.mk.injEq] at h
        obtain ⟨h1, h2⟩ := h
        subst h1
        subst h2
        obtain ⟨d1, d2, d3, d4, d5, d6⟩ := ih (k + 1) _ s2 stmts2 hrec
        refine ⟨d1, d2, by simpa using d3, by simpa using d4, ?_, ?_⟩
        · intro t ht
          rcases List.mem_cons.mp ht with h | h
          · subst h; exact insertObj_sql hio
          · exact d5 t h
        · intro i
          rw [d6 i]
          by_cases hi : i = oid
          · subst hi
            simp [Function.update, assignPk_model]
          · simp [Function.update, hi]

lemma runDirtyPhase_spec :
    ∀ (l : List Nat) (s s' : Session) (stmts : List Stmt),
      runDirtyPhase s l = some (s', stmts) →
      s'.new = s.new ∧ s'.deleted = s.deleted ∧ s'.heap = s.heap ∧
        s'.dirty = l.foldl (fun d i => if hasPk (s.heap i) then d.erase i else d) s.dirty ∧
        stmts.length = (l.filter (fun i => hasPk (s.heap i))).length ∧
        (∀ t ∈ stmts, ∃ r, t.sql = "UPDATE " ++ r) := by
  intro l
  induction l with
  | nil =>
    intro s s' stmts h
    unfold runDirtyPhase at h
    simp only [Option.some.injEq, Prod.mk.injEq] at h
    obtain ⟨h1, h2⟩ := h
    subst h1
    subst h2
    exact ⟨rfl, rfl, rfl, rfl, rfl, by simp⟩
  | cons oid rest ih =>
    intro s s' stmts h
    unfold runDirtyPhase at h
    cases hp : pkCol (s.heap oid).model with
    | none =>
      rw [hp] at h
      obtain ⟨d1, d2, d3, d4, d5, d6⟩ := ih s s' stmts h
      have hpk : hasPk (s.heap oid) = false := by
        unfold hasPk
        rw [hp]
        rfl
      refine ⟨d1, d2, d3, ?_, ?_, d6⟩
      · rw [d4]
        simp [List.foldl_cons, hpk]
      · rw [d5]
        simp [hpk]
    | some c =>
      rw [hp] at h
      dsimp only at h
      cases hg : objGetAttr (s.heap oid) c.name with
      | none => rw [hg] at h; simp at h
      | some pkv =>
        rw [hg] at h
        dsimp only at h
        cases hrec : runDirtyPhase { s with dirty := s.dirty.erase oid } rest with
        | none => rw [hrec] at h; simp at h
        | some p =>
          rw [hrec] at h
          obtain ⟨s2, stmts2⟩ := p
          simp only [Option.some.injEq, Prod.mk.injEq] at h
          obtain ⟨h1, h2⟩ := h
          subst h1
          subst h2
          obtain ⟨d1, d2, d3, d4, d5, d6⟩ := ih _ s2 stmts2 hrec
          have hpk : hasPk (s.heap oid) = true := by
            unfold hasPk
            rw [hp]
            rfl
          refine ⟨d1, d2, d3, ?_, ?_, ?_⟩
          · rw [d4]
            simp [List.foldl_cons, hpk]
          · simp only [List.length_cons, d5, List.filter_cons, hpk]
            simp
          · intro t ht
            rcases List.mem_cons.mp ht with hh | hh
            · subst hh
              exact ⟨_, rfl⟩
            · exact d6 t hh

lemma runDeletedPhase_spec :
    ∀ (l : List Nat) (s s' : Session) (stmts : List Stmt),
      runDeletedPhase s l = some (s', stmts) →
      s'.new = s.new ∧ s'.dirty = s.dirty ∧ s'.heap = s.heap ∧
        s'.deleted = l.foldl (fun d i => if hasPk (s.heap i) then d.erase i else d) s.deleted ∧
        stmts.length = (l.filter (fun i => hasPk (s.heap i))).length ∧
        (∀ t ∈ stmts, ∃ r, t.sql = "DELETE FROM " ++ r) := by
  intro l
  induction l with
  | nil =>
    intro s s' stmts h
    unfold runDeletedPhase at h
    simp only [Option.some.injEq, Prod.mk.injEq] at h
    obtain ⟨h1, h2⟩ := h
    subst h1
    subst h2
    exact ⟨rfl, rfl, rfl, rfl, rfl, by simp⟩
  | cons oid rest ih =>
    intro s s' stmts h
    unfold runDeletedPhase at h
    cases hp : pkCol (s.heap oid).model with
    | none =>
      rw [hp] at h
      obtain ⟨d1, d2, d3, d4, d5, d6⟩ := ih s s' stmts h
      have hpk : hasPk (s.heap oid) = false := by
        unfold hasPk
        rw [hp]
        rfl
      refine ⟨d1, d2, d3, ?_, ?_, d6⟩
      · rw [d4]
        simp [List.foldl_cons, hpk]
      · rw [d5]
        simp [hpk]
    | some c =>
      rw [hp] at h
      dsimp only at h
      cases hg : objGetAttr (s.heap oid) c.name with
      | none => rw [hg] at h; simp at h
      | some pkv =>
        rw [hg] at h
        dsimp only at h
        cases hrec : runDeletedPhase { s with deleted := s.deleted.erase oid } rest with
        | none => rw [hrec] at h; simp at h
        | some p =>
          rw [hrec] at h
          obtain ⟨s2, stmts2⟩ := p
          simp only [Option.some.injEq, Prod.mk.injEq] at h
          obtain ⟨h1, h2⟩ := h
          subst h1
          subst h2
          obtain ⟨d1, d2, d3, d4, d5, d6⟩ := ih _ s2 stmts2 hrec
          have hpk : hasPk (s.heap oid) = true := by
            unfold hasPk
            rw [hp]
            rfl
          refine ⟨d1, d2, d3, ?_, ?_, ?_⟩
          · rw [d4]
            simp [List.foldl_cons, hpk]
          · simp only [List.length_cons, d5, List.filter_cons, hpk]
            simp
          · intro t ht
            rcases List.mem_cons.mp ht with hh | hh
            · subst hh
              exact ⟨_, rfl⟩
            · exact d6 t hh

lemma foldl_erase_cons (p : Nat → Bool) :
    ∀ (l acc : List Nat) (x : Nat), x ∉ l →
      List.foldl (fun d i => if p i then d.erase i else d) (x :: acc) l =
        x :: List.foldl (fun d i => if p i then d.erase i else d) acc l := by
  intro l
  induction l with
  | nil => intro acc x _; rfl
  | cons i l' ih =>
    intro acc x hx
    have hne : ¬(x = i) := fun hh => hx (hh ▸ List.mem_cons_self i l')
    have hx' : x ∉ l' := fun hh => hx (List.mem_cons_of_mem i hh)
    simp only [List.foldl_cons]
    have hstep : (if p i = true then (x :: acc).erase i else x :: acc) =
        x :: (if p i = true then acc.erase i else acc) := by
      by_cases hpi : p i = true
      · simp only [hpi, if_true]
        rw [List.erase_cons]
        have hbe : (x == i) = false := by
          simpa using hne
        rw [hbe]
        simp
      · simp [hpi]
    rw [hstep]
    exact ih _ x hx'

lemma foldl_erase_self (p : Nat → Bool) :
    ∀ d : List Nat, d.Nodup →
      List.foldl (fun d i => if p i then d.erase i else d) d d =
        d.filter (fun i => !p i) := by
  intro d
  induction d with
  | nil => intro _; rfl
  | cons x rest ih =>
    intro hnd
    have hx : x ∉ rest := (List.nodup_cons.mp hnd).1
    have hrest : rest.Nodup := (List.nodup_cons.mp hnd).2
    simp only [List.foldl_cons]
    by_cases hp : p x = true
    · have hstep : (if p x then (x :: rest).erase x else x :: rest) = rest := by
        rw [if_pos hp, List.erase_cons_head]
      rw [hstep, ih hrest, List.filter_cons]
      simp [hp]
    · have hstep : (if p x then (x :: rest).erase x else x :: rest) = x :: rest := by
        simp [hp]
      rw [hstep, foldl_erase_cons p rest rest x hx, ih hrest, List.filter_cons]
      simp [hp]

lemma foldl_erase_all (d : List Nat) (h : d.Nodup) :
    List.foldl (fun d i => d.erase i) d d = [] := by
  have heq : (fun (d : List Nat) i => d.erase i) =
      (fun (d : List Nat) i => if (fun _ => true) i then d.erase i else d) := by
    funext d i
    simp
  rw [heq, foldl_erase_self (fun _ => true) d h]
  simp

/-- Everything `flush` guarantees about statements and residual sets, on
any session state Python can present (duplicate-free pending sets). -/
lemma flush_spec (rowids : Nat → Int) (s s' : Session) (stmts : List Stmt)
    (h : Session.flush rowids s = some (s', stmts))
    (hn : s.new.Nodup) (hd : s.dirty.Nodup) (hdel : s.deleted.Nodup) :
    ∃ ins upd del,
      stmts = ins ++ upd ++ del ∧
        (∀ t ∈ ins, ∃ r, t.sql = "INSERT INTO " ++ r) ∧
        (∀ t ∈ upd, ∃ r, t.sql = "UPDATE " ++ r) ∧
        (∀ t ∈ del, ∃ r, t.sql = "DELETE FROM " ++ r) ∧
        ins.length = s.new.length ∧ s'.new = [] ∧
        upd.length = (s.dirty.filter (fun i => hasPk (s.heap i))).length ∧
        s'.dirty = s.dirty.filter (fun i => !hasPk (s.heap i)) ∧
        del.length = (s.deleted.filter (fun i => hasPk (s.heap i))).length ∧
        s'.deleted = s.deleted.filter (fun i => !hasPk (s.heap i)) := by
  unfold Session.flush at h
  cases h1 : runNewPhase rowids 0 s s.new with
  | none => rw [h1] at h; simp at h
  | some p1 =>
    rw [h1] at h
    obtain ⟨s1, ins⟩ := p1
    dsimp only at h
    cases h2 : runDirtyPhase s1 s1.dirty with
    | none => rw [h2] at h; simp at h
    | some p2 =>
      rw [h2] at h
      obtain ⟨s2, upd⟩ := p2
      dsimp only at h
      cases h3 : runDeletedPhase s2 s2.deleted with
      | none => rw [h3] at h; simp at h
      | some p3 =>
        rw [h3] at h
        obtain ⟨s3, del⟩ := p3
        simp only [Option.some.injEq, Prod.mk.injEq] at h
        obtain ⟨hs3, hstmts⟩ := h
        subst hs3
        subst hstmts
        obtain ⟨a1, a2, a3, a4, a5, a6⟩ := runNewPhase_spec rowids s.new 0 s s1 ins h1
        obtain ⟨b1, b2, b3, b4, b5, b6⟩ := runDirtyPhase_spec s1.dirty s1 s2 upd h2
        obtain ⟨c1, c2, c3, c4, c5, c6⟩ := runDeletedPhase_spec s2.deleted s2 s3 del h3
        have hm1 : ∀ i, hasPk (s1.heap i) = hasPk (s.heap i) := by
          intro i
          unfold hasPk
          rw [a6 i]
        have hm2 : ∀ i, hasPk (s2.heap i) = hasPk (s.heap i) := by
          intro i
          rw [b3, hm1 i]
        have hnew1 : s1.new = [] := by
          rw [a3, foldl_erase_all s.new hn]
        have hdirty2 : s2.dirty = s.dirty.filter (fun i => !hasPk (s.heap i)) := by
          rw [b4, a1]
          have hfun : (fun (d : List Nat) i => if hasPk (s1.heap i) then d.erase i else d) =
              (fun (d : List Nat) i => if hasPk (s.heap i) then d.erase i else d) := by
            funext d i
            rw [hm1 i]
          rw [hfun, foldl_erase_self _ s.dirty hd]
        have hdel3 : s3.deleted = s.deleted.filter (fun i => !hasPk (s.heap i)) := by
          rw [c4, b2, a2]
          have hfun : (fun (d : List Nat) i => if hasPk (s2.heap i) then d.erase i else d) =
              (fun (d : List Nat) i => if hasPk (s.heap i) then d.erase i else d) := by
            funext d i
            rw [hm2 i]
          rw [hfun, foldl_erase_self _ s.deleted hdel]
        refine ⟨ins, upd, del, rfl, a5, b6, c6, a4, ?_, ?_, ?_, ?_, hdel3⟩
        · rw [c1, b1, hnew1]
        · rw [b5, a1]
          have hfun : (fun i => hasPk (s1.heap i)) = (fun i => hasPk (s.heap i)) := by
            funext i
            exact hm1 i
          rw [hfun]
        · rw [c2, hdirty2]
        · rw [c5, b2, a2]
          have hfun : (fun i => hasPk (s2.heap i)) = (fun i => hasPk (s.heap i)) := by
            funext i
            exact hm2 i
          rw [hfun]

/-- C3: every flush that returns emits all INSERT statements (one per
*new* instance) first, then all UPDATE statements (one per *dirty*
instance with a primary-key column), then all DELETE statements (one per
*deleted* instance with a primary-key column); and exactly the instances
for which a statement was executed leave their originating set (the
statement counts match the removals per set). -/
theorem flush_phase_order_and_removal (rowids : Nat → Int) (s s' : Session)
    (stmts : List Stmt) (h : Session.flush rowids s = some (s', stmts))
    (hn : s.new.Nodup) (hd : s.dirty.Nodup) (hdel : s.deleted.Nodup) :
    ∃ ins upd del,
      stmts = ins ++ upd ++ del ∧
        (∀ t ∈ ins, ∃ r, t.sql = "INSERT INTO " ++ r) ∧
        (∀ t ∈ upd, ∃ r, t.sql = "UPDATE " ++ r) ∧
        (∀ t ∈ del, ∃ r, t.sql = "DELETE FROM " ++ r) ∧
        ins.length = s.new.length ∧ s'.new = [] ∧
        upd.length = (s.dirty.filter (fun i => hasPk (s.heap i))).length ∧
        s'.dirty = s.dirty.filter (fun i => !hasPk (s.heap i)) ∧
        del.length = (s.deleted.filter (fun i => hasPk (s.heap i))).length ∧
        s'.deleted = s.deleted.filter (fun i => !hasPk (s.heap i)) :=
  flush_spec rowids s s' stmts h hn hd hdel

/-- A dirty session over the users table: Bob (with assigned primary key)
is pending as an update. -/
def sessionC : Session :=
  ⟨sessionA.heap, [], [1], []⟩

/-- The session `flush` leaves behind on `sessionC`. -/
def sessionC' : Session :=
  ⟨sessionA.heap, [], [], []⟩

/-- The single UPDATE statement `flush` executes on `sessionC`. -/
def updStmtC : Stmt :=
  ⟨"UPDATE users SET name=?, age=? WHERE id=?", [.str "Bob", .int 25, .int 7]⟩

/-- Witness for C3: a concrete flush of one dirty instance. -/
theorem flush_phase_order_and_removal_witness :
    Session.flush (fun _ => 1) sessionC = some (sessionC', [updStmtC]) ∧
      ∃ ins upd del,
        [updStmtC] = ins ++ upd ++ del ∧
          (∀ t ∈ ins, ∃ r, t.sql = "INSERT INTO " ++ r) ∧
          (∀ t ∈ upd, ∃ r, t.sql = "UPDATE " ++ r) ∧
          (∀ t ∈ del, ∃ r, t.sql = "DELETE FROM " ++ r) ∧
          ins.length = sessionC.new.length ∧ sessionC'.new = [] ∧
          upd.length = (sessionC.dirty.filter (fun i => hasPk (sessionC.heap i))).length ∧
          sessionC'.dirty = sessionC.dirty.filter (fun i => !hasPk (sessionC.heap i)) ∧
          del.length = (sessionC.deleted.filter (fun i => hasPk (sessionC.heap i))).length ∧
          sessionC'.deleted = sessionC.deleted.filter (fun i => !hasPk (sessionC.heap i)) :=
  ⟨rfl, flush_phase_order_and_removal (fun _ => 1) sessionC sessionC' [updStmtC] rfl
    (by decide) (by decide) (by decide)⟩

/-- A model with no primary-key column, an instance of it, and a session
holding that instance in *dirty*. -/
def noPkModel : Model :=
  ⟨"logs", [⟨"msg", .string, false⟩]⟩

def logObj : Obj :=
  ⟨noPkModel, [("msg", .str "boot")]⟩

def sessionD : Session :=
  ⟨fun _ => logObj, [], [0], []⟩

/-- Counterexample to C4 as stated: a flush that returns without any
store error, on a session whose *dirty* set holds an instance with no
primary-key column, leaves that instance in *dirty* (the set is not
emptied — the `continue` skips the removal). -/
theorem flush_unkeyed_dirty_persists :
    Session.flush (fun _ => 1) sessionD = some (sessionD, []) ∧ sessionD.dirty ≠ [] :=
  ⟨rfl, by decide⟩

/-- C4 (amended): after a flush that returns without a store error the
*new* set is always empty, and *dirty* and *deleted* are empty provided
every instance they held has a primary-key column in its schema
(instances without one are silently left in their set). -/
theorem flush_empties_pending_sets (rowids : Nat → Int) (s s' : Session)
    (stmts : List Stmt) (h : Session.flush rowids s = some (s', stmts))
    (hn : s.new.Nodup) (hd : s.dirty.Nodup) (hdel : s.deleted.Nodup)
    (hpkd : ∀ i ∈ s.dirty, hasPk (s.heap i) = true)
    (hpkdel : ∀ i ∈ s.deleted, hasPk (s.heap i) = true) :
    s'.new = [] ∧ s'.dirty = [] ∧ s'.deleted = [] := by
  obtain ⟨ins, upd, del, _, _, _, _, _, hnew, _, hdirty, _, hdel3⟩ :=
    flush_spec rowids s s' stmts h hn hd hdel
  refine ⟨hnew, ?_, ?_⟩
  · rw [hdirty]
    apply List.filter_eq_nil_iff.mpr
    intro i hi
    simp [hpkd i hi]
  · rw [hdel3]
    apply List.filter_eq_nil_iff.mpr
    intro i hi
    simp [hpkdel i hi]

/-- Witness for the amended C4: the concrete dirty flush empties all
three pending sets. -/
theorem flush_empties_pending_sets_witness :
    Session.flush (fun _ => 1) sessionC = some (sessionC', [updStmtC]) ∧
      (∀ i ∈ sessionC.dirty, hasPk (sessionC.heap i) = true) ∧
      (sessionC'.new = [] ∧ sessionC'.dirty = [] ∧ sessionC'.deleted = []) :=
  ⟨rfl, by decide,
    flush_empties_pending_sets (fun _ => 1) sessionC sessionC' [updStmtC] rfl
      (by decide) (by decide) (by decide) (by decide) (by decide)⟩

/-- C5: when the flush phases reach a *dirty* or *deleted* instance whose
class declares no primary-key column, the run is the same as if the
instance were not there: no UPDATE or DELETE statement for it, no error
raised, the session state untouched by it (it stays in its set). -/
theorem flush_skips_unkeyed_instance (s : Session) (oid : Nat) (rest : List Nat)
    (h : pkCol (s.heap oid).model = none) :
    runDirtyPhase s (oid :: rest) = runDirtyPhase s rest ∧
      runDeletedPhase s (oid :: rest) = runDeletedPhase s rest := by
  have e1 : runDirtyPhase s (oid :: rest) =
      match pkCol (s.heap oid).model with
      | none => runDirtyPhase s rest
      | some c =>
        match objGetAttr (s.heap oid) c.name with
        | none => none
        | some pkv =>
          match runDirtyPhase { s with dirty := s.dirty.erase oid } rest with
          | none => none
          | some (s2, stmts) => some (s2, updateStmtFor (s.heap oid) c pkv :: stmts) := rfl
  have e2 : runDeletedPhase s (oid :: rest) =
      match pkCol (s.heap oid).model with
      | none => runDeletedPhase s rest
      | some c =>
        match objGetAttr (s.heap oid) c.name with
        | none => none
        | some pkv =>
          match runDeletedPhase { s with deleted := s.deleted.erase oid } rest with
          | none => none
          | some (s2, stmts) =>
            some (s2,
              (⟨"DELETE FROM " ++ (s.heap oid).model.tablename ++ " WHERE " ++ c.name ++ "=?",
                [pkv]⟩ : Stmt) :: stmts) := rfl
  constructor
  · rw [e1, h]
  · rw [e2, h]

/-- Witness for C5: the unkeyed log instance is skipped concretely. -/
theorem flush_skips_unkeyed_instance_witness :
    pkCol (sessionD.heap 0).model = none ∧
      (runDirtyPhase sessionD (0 :: []) = runDirtyPhase sessionD [] ∧
        runDeletedPhase sessionD (0 :: []) = runDeletedPhase sessionD []) :=
  ⟨by decide, flush_skips_unkeyed_instance sessionD 0 [] (by decide)⟩

/-- An order-by directive as the source accepts it: either a bare
`Column` or the `(name, 'ASC'/'DESC')` pair produced by
`Column.asc()`/`Column.desc()`. -/
inductive OrderItem
  | col (c : Column)
  | dir (name : String) (d : String)
deriving DecidableEq

/-- A join directive: the other model and the `(left_col, op, right_col)`
triple as the code consumes it — the left side a column name (used with
`hasattr` and interpolated directly), the right side a `Column` (the code
reads `right.name`). -/
structure JoinSpec where
  model : Model
  left : String
  op : String
  right : Column
deriving DecidableEq

/-- Embeds `Query`: the model it is scoped to and the accumulated filter
expressions (`_filter_exprs`: name, operator, value triples), limit
(`_limit`), order-by (`_order_by`), group-by (`_group_by`) and joins
(`_joins`). The source mutates the query in place and returns `self`;
the embedding passes the updated state functionally. -/
structure Query where
  model : Model
  filter_exprs : List (String × String × Value)
  lim : Option Int
  ord : Option (List OrderItem)
  grp : Option (List Column)
  joins : List JoinSpec
deriving DecidableEq

/-- Embeds `session.query(model)`: a fresh query. -/
def Query.init (m : Model) : Query :=
  ⟨m, [], none, none, none, []⟩

/-- Embeds `Query.filter(*exprs)`: extends `_filter_exprs` in order. -/
def Query.filter (q : Query) (exprs : List (String × String × Value)) : Query :=
  { q with filter_exprs := q.filter_exprs ++ exprs }

/-- Embeds `Query.filter_by(**kwargs)` over the ordered keyword pairs:
for each pair, `getattr(self.model, k)` must resolve to a declared
`Column` (otherwise `AttributeError`/`AssertionError`, i.e. `none`), and
`filter(column == v)` appends `(column.name, "=", v)`. -/
def Query.filter_by (q : Query) : List (String × Value) → Option Query
  | [] => some q
  | (k, v) :: rest =>
    match findCol q.model k with
    | some c => Query.filter_by (Query.filter q [(c.name, "=", v)]) rest
    | none => none

/-- Embeds `Query.limit(n)`. -/
def Query.limit (q : Query) (n : Int) : Query :=
  { q with lim := some n }

/-- Embeds `Query.order_by(*columns)`. -/
def Query.order_by (q : Query) (cols : List OrderItem) : Query :=
  { q with ord := some cols }

/-- Embeds `Query.group_by(*columns)`. -/
def Query.group_by (q : Query) (cols : List Column) : Query :=
  { q with grp := some cols }

/-- Embeds `Query.join(other_model, on_expr)`. -/
def Query.join (q : Query) (j : JoinSpec) : Query :=
  { q with joins := q.joins ++ [j] }

/-- Embeds `Query._build_where_clause`: one `<col> <op> ?` condition per
filter expression, joined by ' AND ' after ' WHERE ' when any exist, and
the filter values, in order, as the parameter list. -/
def build_where_clause (exprs : List (String × String × Value)) : String × List Value :=
  let conditions := exprs.map (fun e => e.1 ++ " " ++ e.2.1 ++ " ?")
  let params := exprs.map (fun e => e.2.2)
  if conditions.isEmpty then ("", [])
  else (" WHERE " ++ String.intercalate (" AND ") conditions, params)

/-- Embeds `Query._build_group_by_clause`: empty for a falsy
`_group_by` (never set, or set to an empty tuple). -/
def build_group_by_clause (q : Query) : String :=
  match q.grp with
  | none => ""
  | some [] => ""
  | some cols => " GROUP BY " ++ String.intercalate (", ") (cols.map (fun c => c.name))

/-- Embeds `Query._build_order_by_clause`. -/
def build_order_by_clause (q : Query) : String :=
  match q.ord with
  | none => ""
  | some [] => ""
  | some cols =>
    " ORDER BY " ++ String.intercalate (", ")
      (cols.map (fun i =>
        match i with
        | .col c => c.name
        | .dir n d => n ++ " " ++ d))

/-- Embeds `Query._build_limit_clause`: ` LIMIT {n}` when a limit is set. -/
def build_limit_clause (q : Query) : String :=
  match q.lim with
  | none => ""
  | some n => " LIMIT " ++ toString n

/-- Embeds `Query._build_sql_clauses`: where, then group-by, then
order-by, then limit, plus the where parameters. -/
def build_sql_clauses (q : Query) : String × List Value :=
  let wc := build_where_clause q.filter_exprs
  (wc.1 ++ build_group_by_clause q ++ build_order_by_clause q ++ build_limit_clause q, wc.2)

/-- The text one join contributes to the FROM clause:
` JOIN <other> ON <ltab>.<lcol> <op> <rtab>.<rcol>`, the side of the
left column resolved by which model declares that attribute name
(`hasattr`), the right side rendered from `right.name`. -/
def joinPiece (q : Query) (j : JoinSpec) : String :=
  let table := q.model.tablename
  let other := j.model.tablename
  let ltab := if (findCol q.model j.left).isSome then table else other
  let rtab := if ltab = table then other else table
  " JOIN " ++ other ++ " ON " ++ ltab ++ "." ++ j.left ++ " " ++ j.op ++
    " " ++ rtab ++ "." ++ j.right.name

/-- Embeds `Query._build_from_clause`: `FROM <table>` followed by the
join pieces accumulated in order. -/
def build_from_clause (q : Query) : String :=
  q.joins.foldl (fun sql j => sql ++ joinPiece q j) ("FROM " ++ q.model.tablename)

/-- The SELECT text and parameters `Query.all` sends to the store:
`"SELECT * " + from_clause + clauses`. -/
def selectSqlParams (q : Query) : String × List Value :=
  let fc := build_from_clause q
  let sc := build_sql_clauses q
  ("SELECT * " ++ fc ++ sc.1, sc.2)

lemma Query.filter_filter (q : Query) (e : String × String × Value)
    (es : List (String × String × Value)) :
    Query.filter (Query.filter q [e]) es = Query.filter q (e :: es) := by
  unfold Query.filter
  simp

lemma Query.filter_nil (q : Query) : Query.filter q [] = q := by
  unfold Query.filter
  simp

lemma filter_by_eq (pairs : List (String × Value)) :
    ∀ q q' : Query, Query.filter_by q pairs = some q' →
      q' = Query.filter q (pairs.map (fun p => (p.1, "=", p.2))) := by
  induction pairs with
  | nil =>
    intro q q' h
    unfold Query.filter_by at h
    simp only [Option.some.injEq] at h
    rw [← h, List.map_nil, Query.filter_nil]
  | cons p rest ih =>
    intro q q' h
    unfold Query.filter_by at h
    cases hc : findCol q.model p.1 with
    | none => rw [hc] at h; simp at h
    | some c =>
      rw [hc] at h
      dsimp only at h
      have hname : c.name = p.1 := by
        have := List.find?_some hc
        simpa using this
      have := ih _ q' h
      rw [this, Query.filter_filter]
      have hmq : (Query.filter q [(c.name, "=", p.2)]).model = q.model := rfl
      rw [List.map_cons, hname]

/-- C6: `filter_by` over ordered keyword pairs naming declared columns
compiles to exactly the SQL text and parameter list of the equivalent
`filter` call with one equality expression per pair, AND-combined in
append order (the two queries are the same state, so every later
compilation agrees). -/
theorem filter_by_equals_filter (q : Query) (pairs : List (String × Value)) (q' : Query)
    (h : Query.filter_by q pairs = some q') :
    selectSqlParams q' =
      selectSqlParams (Query.filter q (pairs.map (fun p => (p.1, "=", p.2)))) := by
  rw [filter_by_eq pairs q q' h]

/-- Witness for C6: `filter_by(name='Alice', age=30)` on the users
query equals the corresponding `filter` call. -/
theorem filter_by_equals_filter_witness :
    Query.filter_by (Query.init userModel) [("name", .str "Alice"), ("age", .int 30)] =
        some ⟨userModel, [("name", "=", .str "Alice"), ("age", "=", .int 30)],
          none, none, none, []⟩ ∧
      selectSqlParams (⟨userModel, [("name", "=", .str "Alice"), ("age", "=", .int 30)],
          none, none, none, []⟩ : Query) =
        selectSqlParams (Query.filter (Query.init userModel)
          ([("name", .str "Alice"), ("age", .int 30)].map (fun p => (p.1, "=", p.2)))) :=
  ⟨rfl, filter_by_equals_filter (Query.init userModel)
    [("name", .str "Alice"), ("age", .int 30)] _ rfl⟩

/-- The join part of the FROM clause on its own. -/
def joinText (q : Query) : String :=
  q.joins.foldl (fun sql j => sql ++ joinPiece q j) ""

lemma foldl_append_factor (g : JoinSpec → String) :
    ∀ (l : List JoinSpec) (a : String),
      l.foldl (fun sql j => sql ++ g j) a = a ++ l.foldl (fun sql j => sql ++ g j) "" := by
  intro l
  induction l with
  | nil =>
    intro a
    simp [String.append_empty]
  | cons j rest ih =>
    intro a
    simp only [List.foldl_cons]
    rw [ih (a ++ g j), ih ("" ++ g j), String.empty_append, String.append_assoc]

lemma build_from_clause_eq (q : Query) :
    build_from_clause q = "FROM " ++ q.model.tablename ++ joinText q := by
  unfold build_from_clause joinText
  rw [foldl_append_factor (joinPiece q) q.joins ("FROM " ++ q.model.tablename),
    String.append_assoc]

/-- C7: `Query.all` compiles exactly one SQL string of the fixed shape
`SELECT * FROM <table>` ++ joins ++ WHERE ++ GROUP BY ++ ORDER BY ++
LIMIT, in that order and no other; each clause is the empty string when
its directive was never given, the WHERE clause joins the accumulated
conditions with ' AND ' when any exist. -/
theorem select_sql_shape (q : Query) :
    (selectSqlParams q).1 =
      "SELECT * FROM " ++ q.model.tablename ++ joinText q ++
        (build_where_clause q.filter_exprs).1 ++ build_group_by_clause q ++
        build_order_by_clause q ++ build_limit_clause q ∧
      (q.joins = [] → joinText q = "") ∧
      (q.filter_exprs = [] → (build_where_clause q.filter_exprs).1 = "") ∧
      (q.filter_exprs ≠ [] → (build_where_clause q.filter_exprs).1 =
        " WHERE " ++ String.intercalate (" AND ")
          (q.filter_exprs.map (fun e => e.1 ++ " " ++ e.2.1 ++ " ?"))) ∧
      (q.grp = none → build_group_by_clause q = "") ∧
      (q.ord = none → build_order_by_clause q = "") ∧
      (q.lim = none → build_limit_clause q = "") := by
  refine ⟨?_, ?_, ?_, ?_, ?_, ?_, ?_⟩
  · unfold selectSqlParams build_sql_clauses
    dsimp only
    rw [build_from_clause_eq]
    simp only [← String.append_assoc]
    rfl
  · intro hj
    unfold joinText
    rw [hj]
    rfl
  · intro hf
    unfold build_where_clause
    rw [hf]
    rfl
  · intro hf
    unfold build_where_clause
    dsimp only
    rw [if_neg]
    simp [hf]
  · intro hg
    unfold build_group_by_clause
    rw [hg]
  · intro ho
    unfold build_order_by_clause
    rw [ho]
  · intro hl
    unfold build_limit_clause
    rw [hl]

/-- A second model for exercising joins. -/
def postModel : Model :=
  ⟨"posts", [⟨"user_id", .integer, false⟩]⟩

/-- A query with every directive set: a filter, a join, group-by,
order-by and a limit. -/
def loadedQuery : Query :=
  ⟨userModel, [("age", "<", .int 30)], some 5, some [.dir "name" "DESC"],
    some [⟨"age", .integer, false⟩], [⟨postModel, "id", "=", ⟨"user_id", .integer, false⟩⟩]⟩

/-- Witness for C7: the loaded query compiles to the expected text with
every clause present in the fixed order, and the shape theorem applies. -/
theorem select_sql_shape_witness :
    (selectSqlParams loadedQuery).1 =
        "SELECT * FROM users JOIN posts ON users.id = posts.user_id WHERE age < ?" ++
          " GROUP BY age ORDER BY name DESC LIMIT 5" ∧
      ((selectSqlParams loadedQuery).1 =
        "SELECT * FROM " ++ loadedQuery.model.tablename ++ joinText loadedQuery ++
          (build_where_clause loadedQuery.filter_exprs).1 ++
          build_group_by_clause loadedQuery ++ build_order_by_clause loadedQuery ++
          build_limit_clause loadedQuery ∧
        (loadedQuery.joins = [] → joinText loadedQuery = "") ∧
        (loadedQuery.filter_exprs = [] →
          (build_where_clause loadedQuery.filter_exprs).1 = "") ∧
        (loadedQuery.filter_exprs ≠ [] →
          (build_where_clause loadedQuery.filter_exprs).1 =
            " WHERE " ++ String.intercalate (" AND ")
              (loadedQuery.filter_exprs.map (fun e => e.1 ++ " " ++ e.2.1 ++ " ?"))) ∧
        (loadedQuery.grp = none → build_group_by_clause loadedQuery = "") ∧
        (loadedQuery.ord = none → build_order_by_clause loadedQuery = "") ∧
        (loadedQuery.lim = none → build_limit_clause loadedQuery = "")) :=
  ⟨by decide, select_sql_shape loadedQuery⟩

/-- C8: the compiled WHERE text is built only from the column names and
operators — two filter lists with the same names and operators compile
to the identical text, whatever their values; the text is '' for no
filters and otherwise ' WHERE ' plus one '<col> <op> ?' placeholder
condition per expression joined by ' AND '; and the values appear, in
filter-append order, exactly once each as the parameter list. -/
theorem where_clause_parametrization (e1 e2 : List (String × String × Value))
    (h : e1.map (fun e => (e.1, e.2.1)) = e2.map (fun e => (e.1, e.2.1))) :
    (build_where_clause e1).1 = (build_where_clause e2).1 ∧
      (build_where_clause e1).2 = e1.map (fun e => e.2.2) ∧
      (build_where_clause e1).1 =
        (if e1 = [] then ""
         else " WHERE " ++ String.intercalate (" AND ")
           (e1.map (fun e => e.1 ++ " " ++ e.2.1 ++ " ?"))) := by
  have hproj : ∀ l : List (String × String × Value),
      l.map (fun e => e.1 ++ " " ++ e.2.1 ++ " ?") =
        (l.map (fun e => (e.1, e.2.1))).map (fun p => p.1 ++ " " ++ p.2 ++ " ?") := by
    intro l
    rw [List.map_map]
    rfl
  refine ⟨?_, ?_, ?_⟩
  · unfold build_where_clause
    dsimp only
    rw [hproj e1, hproj e2, h]
    by_cases hc :
        (((e2.map (fun e => (e.1, e.2.1))).map (fun p => p.1 ++ " " ++ p.2 ++ " ?")).isEmpty) = true
    · rw [if_pos hc, if_pos hc]
    · rw [if_neg hc, if_neg hc]
  · unfold build_where_clause
    dsimp only
    by_cases hc : ((e1.map (fun e => e.1 ++ " " ++ e.2.1 ++ " ?")).isEmpty) = true
    · rw [if_pos hc]
      have he : e1 = [] := by
        simpa using hc
      rw [he]
      rfl
    · rw [if_neg hc]
  · unfold build_where_clause
    dsimp only
    by_cases he : e1 = []
    · have hc : ((e1.map (fun e => e.1 ++ " " ++ e.2.1 ++ " ?")).isEmpty) = true := by
        rw [he]
        rfl
      rw [if_pos hc, if_pos he]
    · have hc : ¬(((e1.map (fun e => e.1 ++ " " ++ e.2.1 ++ " ?")).isEmpty) = true) := by
        simpa using he
      rw [if_neg hc, if_neg he]

/-- Witness for C8: two one-condition filters differing only in value
yield the same text ' WHERE name = ?' with the value as the parameter. -/
theorem where_clause_parametrization_witness :
    ([("name", "=", Value.str "Alice")].map (fun e => (e.1, e.2.1)) =
        [("name", "=", Value.str "Bob")].map (fun e => (e.1, e.2.1))) ∧
      ((build_where_clause [("name", "=", Value.str "Alice")]).1 =
          (build_where_clause [("name", "=", Value.str "Bob")]).1 ∧
        (build_where_clause [("name", "=", Value.str "Alice")]).2 =
          [("name", "=", Value.str "Alice")].map (fun e => e.2.2) ∧
        (build_where_clause [("name", "=", Value.str "Alice")]).1 =
          (if ([("name", "=", Value.str "Alice")] : List (String × String × Value)) = []
           then ""
           else " WHERE " ++ String.intercalate (" AND ")
             ([("name", "=", Value.str "Alice")].map
               (fun e => e.1 ++ " " ++ e.2.1 ++ " ?")))) :=
  ⟨by decide, where_clause_parametrization
    [("name", "=", Value.str "Alice")] [("name", "=", Value.str "Bob")] (by decide)⟩

/-- A result row as the store hands it back: the cursor description's
column names paired positionally with the row's values. -/
abbrev Row := List (String × Value)

/-- Value comparison used by the store model for ORDER-agnostic
filtering: numeric and lexicographic text comparison. -/
def valueLt : Value → Value → Bool
  | .int m, .int n => m < n
  | .str a, .str b => a < b
  | _, _ => false

/-- The store model's interpretation of one comparison operator of the
source's fixed operator set (`=, <>, <, <=, >, >=`). -/
def evalOp (op : String) (a b : Value) : Bool :=
  if op = "=" then decide (a = b)
  else if op = "<>" then !decide (a = b)
  else if op = "<" then valueLt a b
  else if op = "<=" then valueLt a b || decide (a = b)
  else if op = ">" then valueLt b a
  else if op = ">=" then valueLt b a || decide (a = b)
  else false

/-- Whether a row satisfies one compiled filter condition. -/
def rowMatches (r : Row) (e : String × String × Value) : Bool :=
  evalOp e.2.1 ((alGet r e.1).getD .none) e.2.2

/-- Model of the external store collaborator (§6) executing the compiled
SELECT: the table rows satisfying every filter condition (AND), truncated
by LIMIT when a nonnegative limit is present (SQLite treats a negative
LIMIT as unlimited). ORDER BY and GROUP BY are modelled as the identity
on the row list — no claim verified here depends on their effect. -/
def storeSelect (db : List Row) (q : Query) : List Row :=
  let rows := db.filter (fun r => q.filter_exprs.all (fun e => rowMatches r e))
  match q.lim with
  | none => rows
  | some n => if n < 0 then rows else rows.take n.toNat

/-- The rehydration loop's `__dict__` accumulation: each description
column's value is converted by the declared column's `to_python` when
the model declares it (conversion can raise), stored raw otherwise. -/
def hydrateInto (m : Model) (attrs : List (String × Value)) :
    List (String × Value) → Option (List (String × Value))
  | [] => some attrs
  | (n, v) :: rest =>
    match (match findCol m n with
           | some c => FieldType.to_python c.type_ v
           | none => some v) with
    | some w => hydrateInto m (alSet attrs n w) rest
    | none => none

/-- Embeds the per-row rehydration of `Query.all`: a fresh instance
whose `__dict__` is filled from the row. -/
def rehydrate (m : Model) (r : Row) : Option Obj :=
  (hydrateInto m [] r).map (fun attrs => ⟨m, attrs⟩)

/-- Embeds `Query.all`: execute the compiled SELECT against the store
and rehydrate every returned row into a fresh instance (`none` when a
conversion raises mid-loop). -/
def Query.all (db : List Row) (q : Query) : Option (List Obj) :=
  mapOption (rehydrate q.model) (storeSelect db q)

/-- Embeds `Query.first`: `self.limit(1)` mutates the query in place
(returned here as the second component) and the first rehydrated row, if
any, is returned. -/
def Query.first (db : List Row) (q : Query) : Option (Option Obj) × Query :=
  let q' := Query.limit q 1
  ((Query.all db q').map (fun l => l.head?), q')

/-- Embeds `Query.last`: run the full result set and take its final
element (`None` when the result list is empty/falsy). -/
def Query.last (db : List Row) (q : Query) : Option (Option Obj) :=
  (Query.all db q).map (fun l => l.getLast?)

lemma mapOption_length (f : α → Option β) :
    ∀ (l : List α) (l' : List β), mapOption f l = some l' → l'.length = l.length := by
  intro l
  induction l with
  | nil =>
    intro l' h
    unfold mapOption at h
    simp only [Option.some.injEq] at h
    rw [← h]
    rfl
  | cons a tl ih =>
    intro l' h
    unfold mapOption at h
    cases hf : f a with
    | none => rw [hf] at h; simp at h
    | some b =>
      rw [hf] at h
      cases hm : mapOption f tl with
      | none => rw [hm] at h; simp at h
      | some bs =>
        rw [hm] at h
        simp only [Option.some.injEq] at h
        rw [← h]
        simp [ih bs hm]

/-- C9: `first()` permanently sets the query's limit to 1 (the source
mutates the query object in place; here the mutated state is the second
component); afterwards every execution of that same query state — an
`all()`, a `last()`, or another `first()` — operates on at most one row,
whatever limit was set before, and `head?`/`getLast?` coincide on it. -/
theorem first_sets_limit_one_permanently (db : List Row) (q : Query) :
    (Query.first db q).2 = { q with lim := some 1 } ∧
      (Query.first db (Query.first db q).2).2 = (Query.first db q).2 ∧
      ∀ rs, Query.all db (Query.first db q).2 = some rs →
        rs.length ≤ 1 ∧
          Query.last db (Query.first db q).2 = some rs.getLast? ∧
          (Query.first db (Query.first db q).2).1 = some rs.head? ∧
          rs.head? = rs.getLast? := by
  refine ⟨rfl, rfl, ?_⟩
  intro rs h
  have hlen : rs.length ≤ 1 := by
    have h1 := mapOption_length _ _ _ h
    have h2 : (storeSelect db (Query.first db q).2).length ≤ 1 := by
      unfold storeSelect Query.first Query.limit
      dsimp only
      rw [if_neg (by omega)]
      simp [List.length_take]
    omega
  have hhead : rs.head? = rs.getLast? := by
    cases rs with
    | nil => rfl
    | cons a tl =>
      cases tl with
      | nil => rfl
      | cons b tl2 => simp at hlen
  refine ⟨hlen, ?_, ?_, hhead⟩
  · unfold Query.last
    rw [h]
    rfl
  · show (Query.all db (Query.limit (Query.first db q).2 1)).map (fun l => l.head?) =
      some rs.head?
    have hq : Query.limit (Query.first db q).2 1 = (Query.first db q).2 := rfl
    rw [hq, h]
    rfl

/-- The users table contents used for the query witnesses. -/
def dbRows : List Row :=
  [[("id", .int 1), ("name", .str "Alice"), ("age", .int 30)],
   [("id", .int 2), ("name", .str "Bob"), ("age", .int 25)]]

/-- The query state `first()` leaves behind on a fresh users query. -/
def q1W : Query :=
  (Query.first dbRows (Query.init userModel)).2

/-- The instance rehydrated from the first row of `dbRows`. -/
def hydratedAlice : Obj :=
  ⟨userModel, [("id", .int 1), ("name", .str "Alice"), ("age", .int 30)]⟩

/-- Witness for C9: on a two-row table, the post-`first()` query state
executes to a single row, and `last()`/another `first()` agree on it. -/
theorem first_sets_limit_one_witness :
    Query.all dbRows q1W = some [hydratedAlice] ∧
      ([hydratedAlice].length ≤ 1 ∧
        Query.last dbRows q1W = some ([hydratedAlice].getLast?) ∧
        (Query.first dbRows q1W).1 = some ([hydratedAlice].head?) ∧
        ([hydratedAlice] : List Obj).head? = ([hydratedAlice] : List Obj).getLast?) :=
  ⟨rfl,
    (first_sets_limit_one_permanently dbRows (Query.init userModel)).2.2 [hydratedAlice] rfl⟩

lemma alGet_alSet :
    ∀ (l : List (String × Value)) (k : String) (w : Value) (n : String),
      alGet (alSet l k w) n = if n = k then some w else alGet l n := by
  intro l
  induction l with
  | nil =>
    intro k w n
    unfold alSet alGet
    by_cases h : k = n
    · rw [if_pos h, if_pos h.symm]
    · rw [if_neg h, if_neg (fun hh => h hh.symm)]
      rfl
  | cons p tl ih =>
    intro k w n
    obtain ⟨k', w'⟩ := p
    unfold alSet
    by_cases hk : k' = k
    · rw [if_pos hk]
      unfold alGet
      by_cases hn : n = k
      · rw [if_pos ((hk.trans hn.symm)), if_pos hn]
      · rw [if_neg (fun hh => hn (hh.symm.trans hk)), if_neg hn,
          if_neg (fun hh => hn (hh.symm.trans hk))]
    · rw [if_neg hk]
      unfold alGet
      by_cases hkn : k' = n
      · have hnk : ¬(n = k) := fun hh => hk (hkn.trans hh)
        rw [if_pos hkn, if_neg hnk, if_pos hkn]
      · rw [if_neg hkn, ih k w n, if_neg hkn]

lemma hydrate_good (m : Model) :
    ∀ (r attrs : List (String × Value)),
      (∀ n v, alGet attrs n = some v →
        (match findCol m n with
         | some c => FieldType.to_python c.type_ v = some v
         | none => True)) →
      ∀ res, hydrateInto m attrs r = some res →
        ∀ n v, alGet res n = some v →
          (match findCol m n with
           | some c => FieldType.to_python c.type_ v = some v
           | none => True) := by
  intro r
  induction r with
  | nil =>
    intro attrs hinv res h
    unfold hydrateInto at h
    simp only [Option.some.injEq] at h
    rw [← h]
    exact hinv
  | cons p rest ih =>
    intro attrs hinv res h
    obtain ⟨n0, v0⟩ := p
    unfold hydrateInto at h
    cases hconv : (match findCol m n0 with
        | some c => FieldType.to_python c.type_ v0
        | none => some v0) with
    | none => rw [hconv] at h; simp at h
    | some w =>
      rw [hconv] at h
      refine ih (alSet attrs n0 w) ?_ res h
      intro n v hget
      rw [alGet_alSet attrs n0 w n] at hget
      by_cases hn : n = n0
      · rw [if_pos hn] at hget
        simp only [Option.some.injEq] at hget
        subst hget
        rw [hn]
        cases hfc : findCol m n0 with
        | none => simp [hfc]
        | some c =>
          rw [hfc] at hconv
          simp only [hfc]
          exact to_python_fix hconv
      · rw [if_neg hn] at hget
        exact hinv n v hget

/-- C10: `to_python` is idempotent for every field type and value
(in the raising model: converting an already-converted value returns it
unchanged); consequently reading a bound attribute of an instance
rehydrated by `Query.all` — whose `__dict__` holds already-converted
values, re-converted by `Column.__get__` on every read — returns exactly
the stored once-converted host value. -/
theorem to_python_idempotent_and_stable_reread :
    (∀ (t : FieldType) (x : Value),
        (FieldType.to_python t x).bind (FieldType.to_python t) =
          FieldType.to_python t x) ∧
      ∀ (m : Model) (r : Row) (o : Obj), rehydrate m r = some o →
        ∀ (n : String) (v : Value), alGet o.attrs n = some v →
          objGetAttr o n = some v := by
  constructor
  · intro t x
    cases h : FieldType.to_python t x with
    | none => rfl
    | some y =>
      show FieldType.to_python t y = some y
      exact to_python_fix h
  · intro m r o h n v hget
    unfold rehydrate at h
    cases hh : hydrateInto m [] r with
    | none => rw [hh] at h; simp at h
    | some attrs =>
      rw [hh] at h
      simp only [Option.map_some', Option.some.injEq] at h
      have hattrs : o.attrs = attrs := by rw [← h]
      have hmod : o.model = m := by rw [← h]
      rw [hattrs] at hget
      have hgood := hydrate_good m r []
        (by intro n' v' hg; simp [alGet] at hg) attrs hh n v hget
      unfold objGetAttr
      rw [hmod, hattrs]
      cases hfc : findCol m n with
      | none =>
        show alGet attrs n = some v
        exact hget
      | some c =>
        rw [hfc] at hgood
        show FieldType.to_python c.type_ ((alGet attrs n).getD .none) = some v
        rw [hget]
        exact hgood

/-- The instance rehydrated from a one-column row. -/
def hydratedIdObj : Obj :=
  ⟨userModel, [("id", .int 1)]⟩

/-- Witness for C10: idempotence at Boolean over the int 5 (5 → True →
True), and a concrete rehydrated instance whose attribute read returns
the stored converted value. -/
theorem to_python_idempotent_witness :
    ((FieldType.to_python .boolean (.int 5)).bind (FieldType.to_python .boolean) =
        FieldType.to_python .boolean (.int 5)) ∧
      (rehydrate userModel [("id", .int 1)] = some hydratedIdObj ∧
        alGet hydratedIdObj.attrs "id" = some (.int 1) ∧
        objGetAttr hydratedIdObj "id" = some (.int 1)) :=
  ⟨to_python_idempotent_and_stable_reread.1 .boolean (.int 5),
    ⟨rfl, rfl,
      to_python_idempotent_and_stable_reread.2 userModel [("id", .int 1)] hydratedIdObj
        rfl "id" (.int 1) rfl⟩⟩
